import Mathlib

/-!
Verification of the gravitas-core geodesic-integration engine
(`src/physics-engine/gravitas-core`): a shallow embedding over the real
numbers of the tensor primitives, the metric backend, the invariants layer
(Hamiltonian and null-constraint renormalization), the RKF45 integrator with
its adaptive controller, and the top-level `integrate` driver, together with
theorems settling the behavioural claims about them.

IEEE-754 doubles are modelled as real numbers with exact arithmetic; the
unbounded retry loop of the adaptive controller and the driver built on it
are modelled with an explicit fuel parameter returning `Option` (with `none`
for fuel exhaustion), so every stated result is conditional on the loop
having returned, exactly as in the source.
-/

noncomputable section

namespace Gravitas

/-- 4x4 metric tensor; `g mu nu` is the row-major component
`components[mu*4 + nu]` of the Rust `MetricTensor4`. -/
abbrev MetricTensor4 := Matrix (Fin 4) (Fin 4) ℝ

/-- Full contraction `g^{mu nu} p_mu p_nu`: the inner double loop of
`MetricTensor4::contract`, using all 16 products. -/
def MetricTensor4.contract (g : MetricTensor4) (p : Fin 4 → ℝ) : ℝ :=
  ∑ mu : Fin 4, ∑ nu : Fin 4, g mu nu * p mu * p nu

/-- 8-dimensional phase-space state of a geodesic: contravariant coordinates
`x^mu = (t, r, theta, phi)` and covariant momentum `p_mu`
(`GeodesicState` in `geodesic/mod.rs`). -/
@[ext]
structure GeodesicState where
  x : Fin 4 → ℝ
  p : Fin 4 → ℝ

/-- Pair `(dH/dr, dH/dtheta)` returned by every metric backend
(`HamiltonianDerivatives` in `metric/mod.rs`). -/
structure HamiltonianDerivatives where
  dh_dr : ℝ
  dh_dtheta : ℝ

/-- The spacetime-metric interface (the `Metric` trait of `metric/mod.rs`):
covariant and contravariant tensors at `(r, theta)`, analytic Hamiltonian
derivatives, and the `mass`/`spin` parameters. -/
structure Metric where
  covariant : ℝ → ℝ → MetricTensor4
  contravariant : ℝ → ℝ → MetricTensor4
  hamiltonian_derivatives : ℝ → ℝ → (Fin 4 → ℝ) → HamiltonianDerivatives
  mass : ℝ
  spin : ℝ

/-- The trait's provided method `event_horizon`:
`r_+ = M + sqrt(M^2 - a^2)` with `a = spin * M`, falling back to `M` when the
discriminant is negative. -/
def Metric.event_horizon (m : Metric) : ℝ :=
  if m.mass * m.mass - (m.spin * m.mass) * (m.spin * m.mass) < 0 then m.mass
  else m.mass + Real.sqrt (m.mass * m.mass - (m.spin * m.mass) * (m.spin * m.mass))

/-- The Hamiltonian `H = (1/2) g^{mu nu} p_mu p_nu` as `invariants/mod.rs`
computes it: the seven explicit terms `g[0], g[5], g[10], g[15]` (diagonal)
and the doubled cross terms `g[3], g[1], g[7]`. -/
def hamiltonian (s : GeodesicState) (m : Metric) : ℝ :=
  let g := m.contravariant (s.x 1) (s.x 2)
  0.5 * (g 0 0 * s.p 0 * s.p 0
    + g 1 1 * s.p 1 * s.p 1
    + g 2 2 * s.p 2 * s.p 2
    + g 3 3 * s.p 3 * s.p 3
    + 2 * g 0 3 * s.p 0 * s.p 3
    + 2 * g 0 1 * s.p 0 * s.p 1
    + 2 * g 1 3 * s.p 1 * s.p 3)

/-- Coefficient `a_quad = g[5] = g^rr` of the null-constraint quadratic in
`p_r` (`invariants/renormalization.rs`). -/
def renormA (m : Metric) (s : GeodesicState) : ℝ :=
  m.contravariant (s.x 1) (s.x 2) 1 1

/-- Coefficient `b_quad = 2 (g^tr p_t + g^rph p_ph)` of the quadratic. -/
def renormB (m : Metric) (s : GeodesicState) : ℝ :=
  let g := m.contravariant (s.x 1) (s.x 2)
  2 * (g 0 1 * s.p 0 + g 1 3 * s.p 3)

/-- Coefficient `c_quad = g^tt p_t^2 + g^thth p_th^2 + g^phph p_ph^2
+ 2 g^tph p_t p_ph` of the quadratic. -/
def renormC (m : Metric) (s : GeodesicState) : ℝ :=
  let g := m.contravariant (s.x 1) (s.x 2)
  g 0 0 * s.p 0 * s.p 0 + g 2 2 * s.p 2 * s.p 2 + g 3 3 * s.p 3 * s.p 3
    + 2 * g 0 3 * s.p 0 * s.p 3

/-- Discriminant `b_quad^2 - 4 a_quad c_quad`. -/
def renormDisc (m : Metric) (s : GeodesicState) : ℝ :=
  renormB m s * renormB m s - 4 * renormA m s * renormC m s

/-- Root `(-b + sqrt(disc)) / (2a)` of the null-constraint quadratic. -/
def renormSol1 (m : Metric) (s : GeodesicState) : ℝ :=
  (-renormB m s + Real.sqrt (renormDisc m s)) / (2 * renormA m s)

/-- Root `(-b - sqrt(disc)) / (2a)` of the null-constraint quadratic. -/
def renormSol2 (m : Metric) (s : GeodesicState) : ℝ :=
  (-renormB m s - Real.sqrt (renormDisc m s)) / (2 * renormA m s)

/-- `renormalize_null` of `invariants/renormalization.rs`: when `|a_quad|`
exceeds `1e-12` and the discriminant is non-negative, replace `p_r` by the
quadratic root closest to the current `p_r`; otherwise leave the state
untouched. -/
def renormalize_null (m : Metric) (s : GeodesicState) : GeodesicState :=
  if 1e-12 < |renormA m s| then
    if 0 ≤ renormDisc m s then
      { s with
        p := Function.update s.p 1
          (if |renormSol1 m s - s.p 1| < |renormSol2 m s - s.p 1| then renormSol1 m s
           else renormSol2 m s) }
    else s
  else s

lemma renormalize_null_x (m : Metric) (s : GeodesicState) :
    (renormalize_null m s).x = s.x := by
  unfold renormalize_null
  split_ifs <;> rfl

lemma renormalize_null_p_ne (m : Metric) (s : GeodesicState) (i : Fin 4) (hi : i ≠ 1) :
    (renormalize_null m s).p i = s.p i := by
  unfold renormalize_null
  split_ifs <;> simp [Function.update_noteq hi]

lemma renormA_renormalize (m : Metric) (s : GeodesicState) :
    renormA m (renormalize_null m s) = renormA m s := by
  unfold renormA
  rw [renormalize_null_x]

lemma renormB_renormalize (m : Metric) (s : GeodesicState) :
    renormB m (renormalize_null m s) = renormB m s := by
  unfold renormB
  rw [renormalize_null_x, renormalize_null_p_ne m s 0 (by decide),
    renormalize_null_p_ne m s 3 (by decide)]

lemma renormC_renormalize (m : Metric) (s : GeodesicState) :
    renormC m (renormalize_null m s) = renormC m s := by
  unfold renormC
  rw [renormalize_null_x, renormalize_null_p_ne m s 0 (by decide),
    renormalize_null_p_ne m s 2 (by decide), renormalize_null_p_ne m s 3 (by decide)]

lemma renormDisc_renormalize (m : Metric) (s : GeodesicState) :
    renormDisc m (renormalize_null m s) = renormDisc m s := by
  unfold renormDisc
  rw [renormA_renormalize, renormB_renormalize, renormC_renormalize]

lemma renormSol1_renormalize (m : Metric) (s : GeodesicState) :
    renormSol1 m (renormalize_null m s) = renormSol1 m s := by
  unfold renormSol1
  rw [renormA_renormalize, renormB_renormalize, renormDisc_renormalize]

lemma renormSol2_renormalize (m : Metric) (s : GeodesicState) :
    renormSol2 m (renormalize_null m s) = renormSol2 m s := by
  unfold renormSol2
  rw [renormA_renormalize, renormB_renormalize, renormDisc_renormalize]

/-- The root-selection step maps each of the two roots to itself: applied at a
point that already is a root, the "closest root" rule returns that root. -/
lemma pick_root_fixed (a b : ℝ) (q : ℝ) (hq : q = a ∨ q = b) :
    (if |a - q| < |b - q| then a else b) = q := by
  rcases hq with rfl | rfl
  · by_cases hab : q = b
    · subst hab
      simp
    · rw [if_pos]
      rw [sub_self, abs_zero, abs_pos, sub_ne_zero]
      exact fun h => hab h.symm
  · rw [if_neg]
    rw [sub_self, abs_zero]
    exact fun h => absurd h (not_lt.mpr (abs_nonneg _))

lemma renormalize_null_eq_update (m : Metric) (s : GeodesicState)
    (hA : 1e-12 < |renormA m s|) (hD : 0 ≤ renormDisc m s) :
    renormalize_null m s = { s with
      p := Function.update s.p 1
        (if |renormSol1 m s - s.p 1| < |renormSol2 m s - s.p 1| then renormSol1 m s
         else renormSol2 m s) } := by
  unfold renormalize_null
  rw [if_pos hA, if_pos hD]

lemma renormalize_null_eq_self (m : Metric) (s : GeodesicState)
    (h : ¬1e-12 < |renormA m s| ∨ ¬0 ≤ renormDisc m s) :
    renormalize_null m s = s := by
  unfold renormalize_null
  rcases h with h | h
  · rw [if_neg h]
  · by_cases hA : 1e-12 < |renormA m s|
    · rw [if_pos hA, if_neg h]
    · rw [if_neg hA]

/-- Exact idempotence of `renormalize_null`: the coefficients of the quadratic
do not depend on `p_r`, so a second application re-selects the root the first
one installed. -/
lemma renormalize_null_idem (m : Metric) (s : GeodesicState) :
    renormalize_null m (renormalize_null m s) = renormalize_null m s := by
  by_cases hA : 1e-12 < |renormA m s|
  · by_cases hD : 0 ≤ renormDisc m s
    · have hA' : 1e-12 < |renormA m (renormalize_null m s)| := by
        rw [renormA_renormalize]; exact hA
      have hD' : 0 ≤ renormDisc m (renormalize_null m s) := by
        rw [renormDisc_renormalize]; exact hD
      have hp1 : (renormalize_null m s).p 1 = renormSol1 m s ∨
          (renormalize_null m s).p 1 = renormSol2 m s := by
        rw [renormalize_null_eq_update m s hA hD]
        by_cases hc : |renormSol1 m s - s.p 1| < |renormSol2 m s - s.p 1|
        · left; simp [hc]
        · right; simp [hc]
      rw [renormalize_null_eq_update m (renormalize_null m s) hA' hD',
        renormSol1_renormalize, renormSol2_renormalize]
      ext i
      · rfl
      · by_cases hi : i = (1 : Fin 4)
        · subst hi
          simp only [Function.update_same]
          exact pick_root_fixed _ _ _ hp1
        · simp [Function.update_noteq hi]
    · have h1 : renormalize_null m s = s := renormalize_null_eq_self m s (Or.inr hD)
      rw [h1, h1]
  · have h1 : renormalize_null m s = s := renormalize_null_eq_self m s (Or.inl hA)
    rw [h1, h1]

/-- C4: `renormalize_null` is idempotent — for every geodesic state and
metric, the second application differs from the first by at most `1e-14` in
every component (here: exactly zero). -/
theorem C4_renormalize_null_idempotent (m : Metric) (s : GeodesicState) :
    (∀ i : Fin 4,
      |(renormalize_null m (renormalize_null m s)).x i - (renormalize_null m s).x i| ≤ 1e-14) ∧
    (∀ i : Fin 4,
      |(renormalize_null m (renormalize_null m s)).p i - (renormalize_null m s).p i| ≤ 1e-14) := by
  rw [renormalize_null_idem]
  constructor <;> intro i <;> simp <;> norm_num

/-- C5: `renormalize_null` modifies at most the radial momentum `p_r`: the
coordinates and `p_t`, `p_theta`, `p_phi` are always returned unchanged, and
when `|g^rr| ≤ 1e-12` or the discriminant is negative the whole state is
untouched. -/
theorem C5_renormalize_null_frame (m : Metric) (s : GeodesicState) :
    ((renormalize_null m s).x = s.x ∧
      (renormalize_null m s).p 0 = s.p 0 ∧
      (renormalize_null m s).p 2 = s.p 2 ∧
      (renormalize_null m s).p 3 = s.p 3) ∧
    ((|renormA m s| ≤ 1e-12 ∨ renormDisc m s < 0) → renormalize_null m s = s) := by
  refine ⟨⟨renormalize_null_x m s, renormalize_null_p_ne m s 0 (by decide),
    renormalize_null_p_ne m s 2 (by decide), renormalize_null_p_ne m s 3 (by decide)⟩, ?_⟩
  intro h
  unfold renormalize_null
  rcases h with h | h
  · rw [if_neg (not_lt.mpr h)]
  · by_cases hA : 1e-12 < |renormA m s|
    · rw [if_pos hA, if_neg (not_le.mpr h)]
    · rw [if_neg hA]

/-- `GeodesicState::add_scaled`: `self + k * s` componentwise. -/
def GeodesicState.add_scaled (s : GeodesicState) (k : GeodesicState) (c : ℝ) : GeodesicState :=
  ⟨fun i => s.x i + k.x i * c, fun i => s.p i + k.p i * c⟩

/-- `GeodesicState::add_scaled_2`. -/
def GeodesicState.add_scaled_2 (s : GeodesicState) (k1 : GeodesicState) (s1 : ℝ)
    (k2 : GeodesicState) (s2 : ℝ) : GeodesicState :=
  ⟨fun i => s.x i + k1.x i * s1 + k2.x i * s2,
   fun i => s.p i + k1.p i * s1 + k2.p i * s2⟩

/-- `GeodesicState::add_scaled_3`. -/
def GeodesicState.add_scaled_3 (s : GeodesicState) (k1 : GeodesicState) (s1 : ℝ)
    (k2 : GeodesicState) (s2 : ℝ) (k3 : GeodesicState) (s3 : ℝ) : GeodesicState :=
  ⟨fun i => s.x i + k1.x i * s1 + k2.x i * s2 + k3.x i * s3,
   fun i => s.p i + k1.p i * s1 + k2.p i * s2 + k3.p i * s3⟩

/-- `GeodesicState::add_scaled_4`. -/
def GeodesicState.add_scaled_4 (s : GeodesicState) (k1 : GeodesicState) (s1 : ℝ)
    (k2 : GeodesicState) (s2 : ℝ) (k3 : GeodesicState) (s3 : ℝ)
    (k4 : GeodesicState) (s4 : ℝ) : GeodesicState :=
  ⟨fun i => s.x i + k1.x i * s1 + k2.x i * s2 + k3.x i * s3 + k4.x i * s4,
   fun i => s.p i + k1.p i * s1 + k2.p i * s2 + k3.p i * s3 + k4.p i * s4⟩

/-- `GeodesicState::add_scaled_5`. -/
def GeodesicState.add_scaled_5 (s : GeodesicState) (k1 : GeodesicState) (s1 : ℝ)
    (k2 : GeodesicState) (s2 : ℝ) (k3 : GeodesicState) (s3 : ℝ)
    (k4 : GeodesicState) (s4 : ℝ) (k5 : GeodesicState) (s5 : ℝ) : GeodesicState :=
  ⟨fun i => s.x i + k1.x i * s1 + k2.x i * s2 + k3.x i * s3 + k4.x i * s4 + k5.x i * s5,
   fun i => s.p i + k1.p i * s1 + k2.p i * s2 + k3.p i * s3 + k4.p i * s4 + k5.p i * s5⟩

/-- Hamilton's equations right-hand side (`get_state_derivative` of
`geodesic/hamiltonian.rs`): `dx^mu = g^{mu nu} p_nu` using the non-zero
components `g[0..3], g[4..7], g[10], g[12..15]`, and
`dp = (0, -dH/dr, -dH/dtheta, 0)`. -/
def get_state_derivative (s : GeodesicState) (m : Metric) : GeodesicState :=
  let g := m.contravariant (s.x 1) (s.x 2)
  let derivs := m.hamiltonian_derivatives (s.x 1) (s.x 2) s.p
  { x := ![g 0 0 * s.p 0 + g 0 1 * s.p 1 + g 0 3 * s.p 3,
           g 1 0 * s.p 0 + g 1 1 * s.p 1 + g 1 3 * s.p 3,
           g 2 2 * s.p 2,
           g 3 0 * s.p 0 + g 3 1 * s.p 1 + g 3 3 * s.p 3],
    p := ![0, -derivs.dh_dr, -derivs.dh_dtheta, 0] }

/-- RKF45 stage `k1` of `adaptive_rkf45_step`. -/
def rkf45_k1 (s : GeodesicState) (m : Metric) : GeodesicState :=
  get_state_derivative s m

/-- RKF45 stage `k2`. -/
def rkf45_k2 (s : GeodesicState) (m : Metric) (h : ℝ) : GeodesicState :=
  get_state_derivative (s.add_scaled (rkf45_k1 s m) (h / 4)) m

/-- RKF45 stage `k3`. -/
def rkf45_k3 (s : GeodesicState) (m : Metric) (h : ℝ) : GeodesicState :=
  get_state_derivative
    (s.add_scaled_2 (rkf45_k1 s m) (3 * h / 32) (rkf45_k2 s m h) (9 * h / 32)) m

/-- RKF45 stage `k4`. -/
def rkf45_k4 (s : GeodesicState) (m : Metric) (h : ℝ) : GeodesicState :=
  get_state_derivative
    (s.add_scaled_3 (rkf45_k1 s m) (1932 * h / 2197) (rkf45_k2 s m h) (-7200 * h / 2197)
      (rkf45_k3 s m h) (7296 * h / 2197)) m

/-- RKF45 stage `k5`. -/
def rkf45_k5 (s : GeodesicState) (m : Metric) (h : ℝ) : GeodesicState :=
  get_state_derivative
    (s.add_scaled_4 (rkf45_k1 s m) (439 * h / 216) (rkf45_k2 s m h) (-8 * h)
      (rkf45_k3 s m h) (3680 * h / 513) (rkf45_k4 s m h) (-845 * h / 4104)) m

/-- RKF45 stage `k6`. -/
def rkf45_k6 (s : GeodesicState) (m : Metric) (h : ℝ) : GeodesicState :=
  get_state_derivative
    (s.add_scaled_5 (rkf45_k1 s m) (-8 * h / 27) (rkf45_k2 s m h) (2 * h)
      (rkf45_k3 s m h) (-3544 * h / 2565) (rkf45_k4 s m h) (1859 * h / 4104)
      (rkf45_k5 s m h) (-11 * h / 40)) m

/-- `adaptive_rkf45_step` of `geodesic/integrator.rs`: the fifth-order update
and the scalar error estimate, the latter folded as `error.max(err.abs())`
over the four coordinate components starting from `0.0`. -/
def adaptive_rkf45_step (s : GeodesicState) (m : Metric) (h : ℝ) : GeodesicState × ℝ :=
  let k1 := rkf45_k1 s m
  let k3 := rkf45_k3 s m h
  let k4 := rkf45_k4 s m h
  let k5 := rkf45_k5 s m h
  let k6 := rkf45_k6 s m h
  let final_state : GeodesicState :=
    { x := fun i => s.x i + h * (16/135 * k1.x i + 6656/12825 * k3.x i
        + 28561/56430 * k4.x i - 9/50 * k5.x i + 2/55 * k6.x i),
      p := fun i => s.p i + h * (16/135 * k1.p i + 6656/12825 * k3.p i
        + 28561/56430 * k4.p i - 9/50 * k5.p i + 2/55 * k6.p i) }
  let err : Fin 4 → ℝ := fun i => h * ((16/135 - 25/216) * k1.x i
      + (6656/12825 - 1408/2565) * k3.x i + (28561/56430 - 2197/4104) * k4.x i
      + (-9/50 + 1/5) * k5.x i + 2/55 * k6.x i)
  (final_state, max (max (max (max 0 |err 0|) |err 1|) |err 2|) |err 3|)

/-- The fifth-order weights `b5` of the Fehlberg pair, as they appear in the
fifth-order combination of `adaptive_rkf45_step`. -/
def rkf45_b5 : Fin 6 → ℝ := ![16/135, 0, 6656/12825, 28561/56430, -9/50, 2/55]

/-- The fourth-order weights `b4` of the Fehlberg pair; the error expression
of `adaptive_rkf45_step` is written with the differences `b5 - b4`
(`25/216`, `1408/2565`, `2197/4104`, `1/5`, `0`). -/
def rkf45_b4 : Fin 6 → ℝ := ![25/216, 0, 1408/2565, 2197/4104, -1/5, 0]

/-- The six RKF45 stage derivatives as a vector. -/
def rkf45_kvec (s : GeodesicState) (m : Metric) (h : ℝ) : Fin 6 → GeodesicState :=
  ![rkf45_k1 s m, rkf45_k2 s m h, rkf45_k3 s m h, rkf45_k4 s m h, rkf45_k5 s m h,
    rkf45_k6 s m h]

/-- Modelled from the spec sentence behind C1: a scalar error estimate equal
to `max_i |h * Σ_j (b5_j - b4_j) k_j|` taken componentwise over all 8 state
components (four coordinates and four momenta). -/
def rkf45_error_spec (s : GeodesicState) (m : Metric) (h : ℝ) : ℝ :=
  let k := rkf45_kvec s m h
  let ex : Fin 4 → ℝ := fun i => |h * ∑ j : Fin 6, (rkf45_b5 j - rkf45_b4 j) * (k j).x i|
  let ep : Fin 4 → ℝ := fun i => |h * ∑ j : Fin 6, (rkf45_b5 j - rkf45_b4 j) * (k j).p i|
  max (max (max (ex 0) (ex 1)) (max (ex 2) (ex 3)))
    (max (max (ep 0) (ep 1)) (max (ep 2) (ep 3)))

/-- Rust `f64::clamp(lo, hi)`: `lo` if below, `hi` if above, the value
otherwise. -/
def rustClamp (x lo hi : ℝ) : ℝ :=
  if x < lo then lo else if hi < x then hi else x

/-- Rust `f64::signum` on non-NaN input: `-1` for negatives, `+1` otherwise
(Rust maps `+0.0` to `+1.0`). -/
def rustSignum (x : ℝ) : ℝ := if x < 0 then -1 else 1

/-- The adaptive step-size controller (`AdaptiveStepper`), with
`safety_factor = 0.9`, `min_step = 1e-5`, `max_step = 10.0` installed by
`AdaptiveStepper::new`. -/
structure AdaptiveStepper where
  safety_factor : ℝ
  min_step : ℝ
  max_step : ℝ
  tolerance : ℝ

/-- `AdaptiveStepper::new`. -/
def AdaptiveStepper.new (tolerance : ℝ) : AdaptiveStepper :=
  ⟨0.9, 1e-5, 10.0, tolerance⟩

/-- The accept/reject loop inside `AdaptiveStepper::step`, with explicit fuel
for the source's unbounded `loop`; `none` models fuel exhaustion. On success
returns the accepted state and the recommended next step size. -/
def AdaptiveStepper.stepLoop (st : AdaptiveStepper) (m : Metric) (s : GeodesicState) :
    ℕ → ℝ → Option (GeodesicState × ℝ)
  | 0, _ => none
  | fuel + 1, h =>
    let res := adaptive_rkf45_step s m h
    let error_ratio := if res.2 = 0 then 0 else res.2 / st.tolerance
    if error_ratio ≤ 1 then
      let growth := if error_ratio < 1e-4 then 5.0
        else st.safety_factor * error_ratio ^ (-0.2 : ℝ)
      some (res.1, rustClamp (h * min growth 5.0) (-st.max_step) st.max_step)
    else
      let h' := h * max (st.safety_factor * error_ratio ^ (-0.25 : ℝ)) 0.1
      if |h'| < st.min_step then
        some ((adaptive_rkf45_step s m (st.min_step * rustSignum h')).1,
          st.min_step * rustSignum h')
      else
        AdaptiveStepper.stepLoop st m s fuel h'

/-- `AdaptiveStepper::step`: clamp the trial step to
`[-max_step, max_step]`, then run the accept/reject loop. -/
def AdaptiveStepper.step (st : AdaptiveStepper) (m : Metric) (s : GeodesicState)
    (h_try : ℝ) (fuel : ℕ) : Option (GeodesicState × ℝ) :=
  AdaptiveStepper.stepLoop st m s fuel (rustClamp h_try (-st.max_step) st.max_step)

/-- Fixed-step classical RK4 (`step_rk4`), returning the updated state. -/
def step_rk4 (s : GeodesicState) (m : Metric) (h : ℝ) : GeodesicState :=
  let k1 := get_state_derivative s m
  let k2 := get_state_derivative (s.add_scaled k1 (0.5 * h)) m
  let k3 := get_state_derivative (s.add_scaled k2 (0.5 * h)) m
  let k4 := get_state_derivative (s.add_scaled k3 h) m
  { x := fun i => s.x i + (h / 6) * (k1.x i + 2 * k2.x i + 2 * k3.x i + k4.x i),
    p := fun i => s.p i + (h / 6) * (k1.p i + 2 * k2.p i + 2 * k3.p i + k4.p i) }

/-- One pass of the fixed-point iteration inside `step_symplectic`: from the
current midpoint guess, form `s_next = s + f(s_mid) h` and average. -/
def symplecticIter (s : GeodesicState) (m : Metric) (h : ℝ)
    (s_mid : GeodesicState) : GeodesicState :=
  let d := get_state_derivative s_mid m
  { x := fun i => 0.5 * (s.x i + (s.x i + d.x i * h)),
    p := fun i => 0.5 * (s.p i + (s.p i + d.p i * h)) }

/-- Implicit-midpoint symplectic step (`step_symplectic`): two fixed-point
iterations starting from the state itself, then the final update. -/
def step_symplectic (s : GeodesicState) (m : Metric) (h : ℝ) : GeodesicState :=
  let s_mid := symplecticIter s m h (symplecticIter s m h s)
  let d_final := get_state_derivative s_mid m
  ⟨fun i => s.x i + d_final.x i * h, fun i => s.p i + d_final.p i * h⟩

/-- A trivial instance of the metric interface (all tensors zero), used to
evaluate the universally-quantified theorems on concrete inputs. -/
def zeroMetric : Metric where
  covariant := fun _ _ => 0
  contravariant := fun _ _ => 0
  hamiltonian_derivatives := fun _ _ _ => ⟨0, 0⟩
  mass := 0
  spin := 0

/-- A concrete state used as evaluation input for witnesses. -/
def probeState : GeodesicState where
  x := ![0, 5, 1, 0]
  p := ![-1, 2, 3, 4]

/-- Witness for C5: on the zero metric `a_quad = 0`, so the guard fires and
the state is returned untouched. -/
theorem C5_witness :
    (|renormA zeroMetric probeState| ≤ 1e-12 ∨ renormDisc zeroMetric probeState < 0) ∧
    renormalize_null zeroMetric probeState = probeState := by
  have hc : |renormA zeroMetric probeState| ≤ 1e-12 ∨ renormDisc zeroMetric probeState < 0 := by
    left
    unfold renormA zeroMetric
    norm_num
  exact ⟨hc, (C5_renormalize_null_frame zeroMetric probeState).2 hc⟩

lemma rkf45_kvec_0 (s : GeodesicState) (m : Metric) (h : ℝ) :
    rkf45_kvec s m h 0 = rkf45_k1 s m := rfl

lemma rkf45_kvec_1 (s : GeodesicState) (m : Metric) (h : ℝ) :
    rkf45_kvec s m h 1 = rkf45_k2 s m h := rfl

lemma rkf45_kvec_2 (s : GeodesicState) (m : Metric) (h : ℝ) :
    rkf45_kvec s m h 2 = rkf45_k3 s m h := rfl

lemma rkf45_kvec_3 (s : GeodesicState) (m : Metric) (h : ℝ) :
    rkf45_kvec s m h 3 = rkf45_k4 s m h := rfl

lemma rkf45_kvec_4 (s : GeodesicState) (m : Metric) (h : ℝ) :
    rkf45_kvec s m h 4 = rkf45_k5 s m h := rfl

lemma rkf45_kvec_5 (s : GeodesicState) (m : Metric) (h : ℝ) :
    rkf45_kvec s m h 5 = rkf45_k6 s m h := rfl

lemma rkf45_b5_vals :
    rkf45_b5 0 = 16/135 ∧ rkf45_b5 1 = 0 ∧ rkf45_b5 2 = 6656/12825 ∧
    rkf45_b5 3 = 28561/56430 ∧ rkf45_b5 4 = -9/50 ∧ rkf45_b5 5 = 2/55 :=
  ⟨rfl, rfl, rfl, rfl, rfl, rfl⟩

lemma rkf45_b4_vals :
    rkf45_b4 0 = 25/216 ∧ rkf45_b4 1 = 0 ∧ rkf45_b4 2 = 1408/2565 ∧
    rkf45_b4 3 = 2197/4104 ∧ rkf45_b4 4 = -1/5 ∧ rkf45_b4 5 = 0 :=
  ⟨rfl, rfl, rfl, rfl, rfl, rfl⟩

/-- The per-component error expression of `adaptive_rkf45_step` equals the
weighted sum `h * Σ_j (b5_j - b4_j) k_j` over the six stages (the coefficient
of `k2` being zero). -/
lemma rkf45_err_component (s : GeodesicState) (m : Metric) (h : ℝ) (i : Fin 4) :
    h * ((16/135 - 25/216) * (rkf45_k1 s m).x i
      + (6656/12825 - 1408/2565) * (rkf45_k3 s m h).x i
      + (28561/56430 - 2197/4104) * (rkf45_k4 s m h).x i
      + (-9/50 + 1/5) * (rkf45_k5 s m h).x i
      + 2/55 * (rkf45_k6 s m h).x i) =
    h * ∑ j : Fin 6, (rkf45_b5 j - rkf45_b4 j) * (rkf45_kvec s m h j).x i := by
  simp only [Fin.sum_univ_six,
    rkf45_kvec_0, rkf45_kvec_1, rkf45_kvec_2, rkf45_kvec_3, rkf45_kvec_4, rkf45_kvec_5,
    rkf45_b5_vals.1, rkf45_b5_vals.2.1, rkf45_b5_vals.2.2.1, rkf45_b5_vals.2.2.2.1,
    rkf45_b5_vals.2.2.2.2.1, rkf45_b5_vals.2.2.2.2.2,
    rkf45_b4_vals.1, rkf45_b4_vals.2.1, rkf45_b4_vals.2.2.1, rkf45_b4_vals.2.2.2.1,
    rkf45_b4_vals.2.2.2.2.1, rkf45_b4_vals.2.2.2.2.2]
  ring

/-- C1 (amended): the scalar error estimate returned by `adaptive_rkf45_step`
is the maximum of `|h * Σ_j (b5_j - b4_j) k_j|` over the four coordinate
components `x^mu` only — the four momentum components do not enter it. -/
theorem C1_error_estimate_coordinate_components (s : GeodesicState) (m : Metric) (h : ℝ) :
    (adaptive_rkf45_step s m h).2 =
      max (max (max |h * ∑ j : Fin 6, (rkf45_b5 j - rkf45_b4 j) * (rkf45_kvec s m h j).x 0|
          |h * ∑ j : Fin 6, (rkf45_b5 j - rkf45_b4 j) * (rkf45_kvec s m h j).x 1|)
        |h * ∑ j : Fin 6, (rkf45_b5 j - rkf45_b4 j) * (rkf45_kvec s m h j).x 2|)
      |h * ∑ j : Fin 6, (rkf45_b5 j - rkf45_b4 j) * (rkf45_kvec s m h j).x 3| := by
  have h0 : (adaptive_rkf45_step s m h).2 =
      max (max (max (max 0
        |h * ∑ j : Fin 6, (rkf45_b5 j - rkf45_b4 j) * (rkf45_kvec s m h j).x 0|)
        |h * ∑ j : Fin 6, (rkf45_b5 j - rkf45_b4 j) * (rkf45_kvec s m h j).x 1|)
        |h * ∑ j : Fin 6, (rkf45_b5 j - rkf45_b4 j) * (rkf45_kvec s m h j).x 2|)
        |h * ∑ j : Fin 6, (rkf45_b5 j - rkf45_b4 j) * (rkf45_kvec s m h j).x 3| := by
    simp only [adaptive_rkf45_step]
    rw [rkf45_err_component s m h 0, rkf45_err_component s m h 1,
      rkf45_err_component s m h 2, rkf45_err_component s m h 3]
  have hz : max (0:ℝ) |h * ∑ j : Fin 6, (rkf45_b5 j - rkf45_b4 j) * (rkf45_kvec s m h j).x 0|
      = |h * ∑ j : Fin 6, (rkf45_b5 j - rkf45_b4 j) * (rkf45_kvec s m h j).x 0| :=
    max_eq_right (abs_nonneg _)
  rw [h0, hz]

/-- A metric-interface instance whose derivative field feeds `p_r` back into
the momentum equation (`dH/dr = p_r`): the RKF45 stage derivatives then
differ from stage to stage in the momentum components while all coordinate
velocities vanish. -/
def oscMetric : Metric where
  covariant := fun _ _ => 0
  contravariant := fun _ _ => 0
  hamiltonian_derivatives := fun _ _ p => ⟨p 1, 0⟩
  mass := 0
  spin := 0

/-- Initial state for the `oscMetric` evaluation: unit radial momentum. -/
def oscState : GeodesicState where
  x := ![0, 0, 0, 0]
  p := ![0, 1, 0, 0]

lemma oscState_p1 : oscState.p 1 = 1 := by simp [oscState]

lemma oscDeriv_x (s : GeodesicState) (i : Fin 4) :
    (get_state_derivative s oscMetric).x i = 0 := by
  unfold get_state_derivative oscMetric
  fin_cases i <;> simp

lemma oscDeriv_p0 (s : GeodesicState) : (get_state_derivative s oscMetric).p 0 = 0 := by
  simp [get_state_derivative, oscMetric]

lemma oscDeriv_p1 (s : GeodesicState) : (get_state_derivative s oscMetric).p 1 = -(s.p 1) := by
  simp [get_state_derivative, oscMetric]

lemma oscDeriv_p2 (s : GeodesicState) : (get_state_derivative s oscMetric).p 2 = 0 := by
  simp [get_state_derivative, oscMetric]

lemma oscDeriv_p3 (s : GeodesicState) : (get_state_derivative s oscMetric).p 3 = 0 := by
  simp [get_state_derivative, oscMetric]

lemma osc_k1_x (i : Fin 4) : (rkf45_k1 oscState oscMetric).x i = 0 := by
  rw [rkf45_k1]; exact oscDeriv_x _ _

lemma osc_k2_x (i : Fin 4) : (rkf45_k2 oscState oscMetric 1).x i = 0 := by
  rw [rkf45_k2]; exact oscDeriv_x _ _

lemma osc_k3_x (i : Fin 4) : (rkf45_k3 oscState oscMetric 1).x i = 0 := by
  rw [rkf45_k3]; exact oscDeriv_x _ _

lemma osc_k4_x (i : Fin 4) : (rkf45_k4 oscState oscMetric 1).x i = 0 := by
  rw [rkf45_k4]; exact oscDeriv_x _ _

lemma osc_k5_x (i : Fin 4) : (rkf45_k5 oscState oscMetric 1).x i = 0 := by
  rw [rkf45_k5]; exact oscDeriv_x _ _

lemma osc_k6_x (i : Fin 4) : (rkf45_k6 oscState oscMetric 1).x i = 0 := by
  rw [rkf45_k6]; exact oscDeriv_x _ _

lemma osc_k1_p1 : (rkf45_k1 oscState oscMetric).p 1 = -1 := by
  rw [rkf45_k1, oscDeriv_p1, oscState_p1]

lemma osc_k2_p1 : (rkf45_k2 oscState oscMetric 1).p 1 = -(3/4) := by
  rw [rkf45_k2, oscDeriv_p1]
  simp only [GeodesicState.add_scaled, oscState_p1, osc_k1_p1]
  norm_num

lemma osc_k3_p1 : (rkf45_k3 oscState oscMetric 1).p 1 = -(89/128) := by
  rw [rkf45_k3, oscDeriv_p1]
  simp only [GeodesicState.add_scaled_2, oscState_p1, osc_k1_p1, osc_k2_p1]
  norm_num

lemma osc_k4_p1 : (rkf45_k4 oscState oscMetric 1).p 1 = -(592/2197) := by
  rw [rkf45_k4, oscDeriv_p1]
  simp only [GeodesicState.add_scaled_3, oscState_p1, osc_k1_p1, osc_k2_p1, osc_k3_p1]
  norm_num

lemma osc_k5_p1 : (rkf45_k5 oscState oscMetric 1).p 1 = -(11/312) := by
  rw [rkf45_k5, oscDeriv_p1]
  simp only [GeodesicState.add_scaled_4, oscState_p1, osc_k1_p1, osc_k2_p1, osc_k3_p1,
    osc_k4_p1]
  norm_num

lemma osc_k6_p1 : (rkf45_k6 oscState oscMetric 1).p 1 = -(1609/2496) := by
  rw [rkf45_k6, oscDeriv_p1]
  simp only [GeodesicState.add_scaled_5, oscState_p1, osc_k1_p1, osc_k2_p1, osc_k3_p1,
    osc_k4_p1, osc_k5_p1]
  norm_num

lemma osc_k1_p0 : (rkf45_k1 oscState oscMetric).p 0 = 0 := by
  rw [rkf45_k1]; exact oscDeriv_p0 _

lemma osc_k2_p0 : (rkf45_k2 oscState oscMetric 1).p 0 = 0 := by
  rw [rkf45_k2]; exact oscDeriv_p0 _

lemma osc_k3_p0 : (rkf45_k3 oscState oscMetric 1).p 0 = 0 := by
  rw [rkf45_k3]; exact oscDeriv_p0 _

lemma osc_k4_p0 : (rkf45_k4 oscState oscMetric 1).p 0 = 0 := by
  rw [rkf45_k4]; exact oscDeriv_p0 _

lemma osc_k5_p0 : (rkf45_k5 oscState oscMetric 1).p 0 = 0 := by
  rw [rkf45_k5]; exact oscDeriv_p0 _

lemma osc_k6_p0 : (rkf45_k6 oscState oscMetric 1).p 0 = 0 := by
  rw [rkf45_k6]; exact oscDeriv_p0 _

lemma osc_k1_p2 : (rkf45_k1 oscState oscMetric).p 2 = 0 := by
  rw [rkf45_k1]; exact oscDeriv_p2 _

lemma osc_k2_p2 : (rkf45_k2 oscState oscMetric 1).p 2 = 0 := by
  rw [rkf45_k2]; exact oscDeriv_p2 _

lemma osc_k3_p2 : (rkf45_k3 oscState oscMetric 1).p 2 = 0 := by
  rw [rkf45_k3]; exact oscDeriv_p2 _

lemma osc_k4_p2 : (rkf45_k4 oscState oscMetric 1).p 2 = 0 := by
  rw [rkf45_k4]; exact oscDeriv_p2 _

lemma osc_k5_p2 : (rkf45_k5 oscState oscMetric 1).p 2 = 0 := by
  rw [rkf45_k5]; exact oscDeriv_p2 _

lemma osc_k6_p2 : (rkf45_k6 oscState oscMetric 1).p 2 = 0 := by
  rw [rkf45_k6]; exact oscDeriv_p2 _

lemma osc_k1_p3 : (rkf45_k1 oscState oscMetric).p 3 = 0 := by
  rw [rkf45_k1]; exact oscDeriv_p3 _

lemma osc_k2_p3 : (rkf45_k2 oscState oscMetric 1).p 3 = 0 := by
  rw [rkf45_k2]; exact oscDeriv_p3 _

lemma osc_k3_p3 : (rkf45_k3 oscState oscMetric 1).p 3 = 0 := by
  rw [rkf45_k3]; exact oscDeriv_p3 _

lemma osc_k4_p3 : (rkf45_k4 oscState oscMetric 1).p 3 = 0 := by
  rw [rkf45_k4]; exact oscDeriv_p3 _

lemma osc_k5_p3 : (rkf45_k5 oscState oscMetric 1).p 3 = 0 := by
  rw [rkf45_k5]; exact oscDeriv_p3 _

lemma osc_k6_p3 : (rkf45_k6 oscState oscMetric 1).p 3 = 0 := by
  rw [rkf45_k6]; exact oscDeriv_p3 _

/-- C1 is false as stated: at a concrete state, metric-interface instance and
step size, the error estimate the code returns (`0`, because all coordinate
velocities vanish) differs from the maximum taken over all 8 phase-space
components (`11/6240`, carried by the radial-momentum component). -/
theorem C1_counterexample :
    (adaptive_rkf45_step oscState oscMetric 1).2 ≠ rkf45_error_spec oscState oscMetric 1 := by
  have hcode : (adaptive_rkf45_step oscState oscMetric 1).2 = 0 := by
    simp only [adaptive_rkf45_step, osc_k1_x, osc_k3_x, osc_k4_x, osc_k5_x, osc_k6_x]
    norm_num
  have hspec : rkf45_error_spec oscState oscMetric 1 = 11/6240 := by
    simp only [rkf45_error_spec, Fin.sum_univ_six,
      rkf45_kvec_0, rkf45_kvec_1, rkf45_kvec_2, rkf45_kvec_3, rkf45_kvec_4, rkf45_kvec_5,
      rkf45_b5_vals.1, rkf45_b5_vals.2.1, rkf45_b5_vals.2.2.1, rkf45_b5_vals.2.2.2.1,
      rkf45_b5_vals.2.2.2.2.1, rkf45_b5_vals.2.2.2.2.2,
      rkf45_b4_vals.1, rkf45_b4_vals.2.1, rkf45_b4_vals.2.2.1, rkf45_b4_vals.2.2.2.1,
      rkf45_b4_vals.2.2.2.2.1, rkf45_b4_vals.2.2.2.2.2,
      osc_k1_x, osc_k2_x, osc_k3_x, osc_k4_x, osc_k5_x, osc_k6_x,
      osc_k1_p0, osc_k2_p0, osc_k3_p0, osc_k4_p0, osc_k5_p0, osc_k6_p0,
      osc_k1_p1, osc_k2_p1, osc_k3_p1, osc_k4_p1, osc_k5_p1, osc_k6_p1,
      osc_k1_p2, osc_k2_p2, osc_k3_p2, osc_k4_p2, osc_k5_p2, osc_k6_p2,
      osc_k1_p3, osc_k2_p3, osc_k3_p3, osc_k4_p3, osc_k5_p3, osc_k6_p3]
    norm_num
  rw [hcode, hspec]
  norm_num

lemma abs_rustClamp_le_ten (x : ℝ) : |rustClamp x (-10.0) 10.0| ≤ 10 := by
  unfold rustClamp
  split_ifs with h1 h2
  · norm_num
  · norm_num
  · push_neg at h1 h2
    rw [abs_le]
    norm_num at h1 h2 ⊢
    exact ⟨h1, h2⟩

lemma abs_minstep_signum_le_ten (y : ℝ) : |(1e-5 : ℝ) * rustSignum y| ≤ 10 := by
  unfold rustSignum
  split_ifs <;> rw [abs_le] <;> norm_num

/-- Every value the accept/reject loop of the default-configured controller
can return has magnitude at most `max_step = 10`: the accept path clamps to
`[-10, 10]`, the forced path returns `±min_step`. -/
lemma stepLoop_new_bound (tol : ℝ) (m : Metric) (s : GeodesicState) :
    ∀ (fuel : ℕ) (h : ℝ) (s' : GeodesicState) (h' : ℝ),
      (AdaptiveStepper.new tol).stepLoop m s fuel h = some (s', h') → |h'| ≤ 10 := by
  intro fuel
  induction fuel with
  | zero =>
    intro h s' h' hstep
    simp [AdaptiveStepper.stepLoop] at hstep
  | succ n ih =>
    intro h s' h' hstep
    simp only [AdaptiveStepper.stepLoop, AdaptiveStepper.new] at hstep
    split_ifs at hstep <;>
      first
        | (rw [Option.some.injEq, Prod.mk.injEq] at hstep
           rw [← hstep.2]
           first
             | exact abs_rustClamp_le_ten _
             | exact abs_minstep_signum_le_ten _)
        | exact ih _ _ _ hstep

/-- C6 (amended): whenever `AdaptiveStepper::step` with the default
configuration (`min_step = 1e-5`, `max_step = 10`) returns, the magnitude of
the returned signed step size is at most `max_step = 10`; no lower bound
holds (see the counterexample, where it returns `0`). -/
theorem C6_step_size_upper_bound (tol : ℝ) (m : Metric) (s : GeodesicState) (h_try : ℝ)
    (fuel : ℕ) (s' : GeodesicState) (h' : ℝ)
    (hstep : (AdaptiveStepper.new tol).step m s h_try fuel = some (s', h')) :
    |h'| ≤ 10 :=
  stepLoop_new_bound tol m s fuel _ s' h' hstep

lemma rkf45_snd_zero_h (s : GeodesicState) (m : Metric) :
    (adaptive_rkf45_step s m 0).2 = 0 := by
  simp only [adaptive_rkf45_step]
  norm_num

/-- C6 is false as stated: with trial step `h_try = 0` the controller accepts
immediately and returns step size `0`, whose absolute value is below
`min_step = 1e-5`, so the returned step does not lie in
`[min_step, max_step]`. -/
theorem C6_counterexample :
    (AdaptiveStepper.new 1).step zeroMetric oscState 0 1 =
      some ((adaptive_rkf45_step oscState zeroMetric 0).1, 0) ∧
    ¬((1e-5 : ℝ) ≤ |(0 : ℝ)|) := by
  constructor
  · have hc : rustClamp (0 : ℝ) (-10.0) 10.0 = 0 := by norm_num [rustClamp]
    simp only [AdaptiveStepper.step, AdaptiveStepper.new, hc, AdaptiveStepper.stepLoop]
    rw [rkf45_snd_zero_h]
    norm_num [rustClamp]
  · norm_num

/-- Witness for C6 (amended): a concrete controller run that returns, with
the bound evaluated there. -/
theorem C6_step_size_upper_bound_witness :
    (AdaptiveStepper.new 1).step zeroMetric probeState 0 1 =
      some ((adaptive_rkf45_step probeState zeroMetric 0).1, 0) ∧
    |(0 : ℝ)| ≤ 10 := by
  have hrun : (AdaptiveStepper.new 1).step zeroMetric probeState 0 1 =
      some ((adaptive_rkf45_step probeState zeroMetric 0).1, 0) := by
    have hc : rustClamp (0 : ℝ) (-10.0) 10.0 = 0 := by norm_num [rustClamp]
    simp only [AdaptiveStepper.step, AdaptiveStepper.new, hc, AdaptiveStepper.stepLoop]
    rw [rkf45_snd_zero_h]
    norm_num [rustClamp]
  exact ⟨hrun,
    C6_step_size_upper_bound 1 zeroMetric probeState 0 1
      (adaptive_rkf45_step probeState zeroMetric 0).1 0 hrun⟩


/-- `TerminationReason` of `geodesic/termination.rs`. -/
inductive TerminationReason where
  | None
  | Horizon
  | Escape
  | MaxSteps
  | DiskCrossing
deriving DecidableEq

/-- `GeodesicState::check_termination`: `r < horizon * 1.001` means `Horizon`,
then `r > escape_r` means `Escape`, otherwise `None`. -/
def GeodesicState.check_termination (s : GeodesicState) (horizon escape_r : ℝ) :
    TerminationReason :=
  if s.x 1 < horizon * 1.001 then TerminationReason.Horizon
  else if escape_r < s.x 1 then TerminationReason.Escape
  else TerminationReason.None

/-- `IntegrationMethod`. -/
inductive IntegrationMethod where
  | AdaptiveRKF45
  | RK4 (step_size : ℝ)
  | Symplectic (step_size : ℝ)

/-- `IntegrationOptions`. -/
structure IntegrationOptions where
  method : IntegrationMethod
  tolerance : ℝ
  initial_step : ℝ
  max_steps : ℕ
  escape_radius : ℝ
  renormalize_interval : ℕ
  record_path : Bool

/-- `Trajectory`. -/
structure Trajectory where
  final_state : GeodesicState
  termination : TerminationReason
  steps_taken : ℕ
  max_hamiltonian_drift : ℝ
  path : Option (List GeodesicState)

/-- The method-dispatch step of the driver loop (`match options.method`); the
adaptive path threads the retry-loop fuel, the fixed-step paths keep `h`. -/
def advance (m : Metric) (opts : IntegrationOptions) (fuel : ℕ) (s : GeodesicState)
    (h : ℝ) : Option (GeodesicState × ℝ) :=
  match opts.method with
  | IntegrationMethod.AdaptiveRKF45 => (AdaptiveStepper.new opts.tolerance).step m s h fuel
  | IntegrationMethod.RK4 sz => some (step_rk4 s m sz, h)
  | IntegrationMethod.Symplectic sz => some (step_symplectic s m sz, h)

/-- One driver-loop iteration after the termination check: advance by the
configured method, then renormalize when the pre-increment step counter is
divisible by `renormalize_interval`. -/
def loopBody (m : Metric) (opts : IntegrationOptions) (fuel : ℕ) (s : GeodesicState)
    (h : ℝ) (steps : ℕ) : Option (GeodesicState × ℝ) :=
  (advance m opts fuel s h).map fun sh =>
    (if steps % opts.renormalize_interval = 0 then renormalize_null m sh.1 else sh.1, sh.2)

/-- The `for _ in 0..max_steps` loop of `integrate`, recursing on the number
of remaining iterations; threads the state, step size, step counter, maximum
Hamiltonian drift, and the optional recorded path. -/
def integrateLoop (m : Metric) (opts : IntegrationOptions) (fuel : ℕ) :
    ℕ → GeodesicState → ℝ → ℕ → ℝ → Option (List GeodesicState) → Option Trajectory
  | 0, s, _, steps, drift, path =>
    some ⟨s, TerminationReason.MaxSteps, steps, drift, path⟩
  | remaining + 1, s, h, steps, drift, path =>
    let term := s.check_termination (Metric.event_horizon m) opts.escape_radius
    if term ≠ TerminationReason.None then
      some ⟨s, term, steps, drift, path⟩
    else
      (loopBody m opts fuel s h steps).bind fun sh =>
        integrateLoop m opts fuel remaining sh.1 sh.2 (steps + 1)
          (max drift |hamiltonian sh.1 m|) (path.map (fun l => l ++ [sh.1]))

/-- `integrate` of `geodesic/mod.rs`: record the supplied initial state when
path recording is on, renormalize once onto the null surface, then run the
step loop with `h = initial_step`, `steps = 0`, `max_drift = 0`. -/
def integrate (fuel : ℕ) (initial : GeodesicState) (m : Metric)
    (opts : IntegrationOptions) : Option Trajectory :=
  integrateLoop m opts fuel opts.max_steps (renormalize_null m initial) opts.initial_step
    0 0 (if opts.record_path then some [initial] else none)

/-- The state and step size after `n` completed driver-loop iterations,
starting from the initially renormalized state. -/
def iterN (m : Metric) (opts : IntegrationOptions) (fuel : ℕ) (initial : GeodesicState) :
    ℕ → Option (GeodesicState × ℝ)
  | 0 => some (renormalize_null m initial, opts.initial_step)
  | n + 1 => (iterN m opts fuel initial n).bind fun sh => loopBody m opts fuel sh.1 sh.2 n

lemma integrateLoop_termination_inv (m : Metric) (opts : IntegrationOptions) (fuel : ℕ) :
    ∀ (remaining : ℕ) (s : GeodesicState) (h : ℝ) (steps : ℕ) (drift : ℝ)
      (path : Option (List GeodesicState)) (traj : Trajectory),
      integrateLoop m opts fuel remaining s h steps drift path = some traj →
      (traj.termination = TerminationReason.Horizon →
        traj.final_state.x 1 < Metric.event_horizon m * 1.001) ∧
      (traj.termination = TerminationReason.Escape →
        opts.escape_radius < traj.final_state.x 1) := by
  intro remaining
  induction remaining with
  | zero =>
    intro s h steps drift path traj htraj
    simp only [integrateLoop, Option.some.injEq] at htraj
    subst htraj
    constructor <;> intro habs <;> simp at habs
  | succ n ih =>
    intro s h steps drift path traj htraj
    simp only [integrateLoop] at htraj
    by_cases hterm :
        s.check_termination (Metric.event_horizon m) opts.escape_radius ≠ TerminationReason.None
    · rw [if_pos hterm, Option.some.injEq] at htraj
      subst htraj
      unfold GeodesicState.check_termination at hterm ⊢
      split_ifs at hterm ⊢ with h1 h2
      · exact ⟨fun _ => h1, fun habs => by simp at habs⟩
      · exact ⟨fun habs => by simp at habs, fun _ => h2⟩
      · exact absurd rfl hterm
    · rw [if_neg hterm] at htraj
      cases hlb : loopBody m opts fuel s h steps with
      | none => rw [hlb] at htraj; simp at htraj
      | some sh =>
        rw [hlb, Option.some_bind] at htraj
        exact ih _ _ _ _ _ _ htraj

/-- C3: termination is tested before each step on the incoming state —
whenever the driver returns `Horizon` the final state satisfies
`r < horizon * 1.001`, and whenever it returns `Escape` the final state
satisfies `r > escape_radius`; the returned state is the one that was
tested. -/
theorem C3_termination_tested_on_incoming_state (fuel : ℕ) (initial : GeodesicState)
    (m : Metric) (opts : IntegrationOptions) (traj : Trajectory)
    (htraj : integrate fuel initial m opts = some traj) :
    (traj.termination = TerminationReason.Horizon →
      traj.final_state.x 1 < Metric.event_horizon m * 1.001) ∧
    (traj.termination = TerminationReason.Escape →
      opts.escape_radius < traj.final_state.x 1) :=
  integrateLoop_termination_inv m opts fuel _ _ _ _ _ _ traj htraj

lemma integrateLoop_reason_inv (m : Metric) (opts : IntegrationOptions) (fuel : ℕ) :
    ∀ (remaining : ℕ) (s : GeodesicState) (h : ℝ) (steps : ℕ) (drift : ℝ)
      (path : Option (List GeodesicState)) (traj : Trajectory),
      integrateLoop m opts fuel remaining s h steps drift path = some traj →
      traj.termination = TerminationReason.Horizon ∨
      traj.termination = TerminationReason.Escape ∨
      traj.termination = TerminationReason.MaxSteps := by
  intro remaining
  induction remaining with
  | zero =>
    intro s h steps drift path traj htraj
    simp only [integrateLoop, Option.some.injEq] at htraj
    subst htraj
    right; right; rfl
  | succ n ih =>
    intro s h steps drift path traj htraj
    simp only [integrateLoop] at htraj
    by_cases hterm :
        s.check_termination (Metric.event_horizon m) opts.escape_radius ≠ TerminationReason.None
    · rw [if_pos hterm, Option.some.injEq] at htraj
      subst htraj
      unfold GeodesicState.check_termination at hterm ⊢
      split_ifs at hterm ⊢ with h1 h2
      · left; rfl
      · right; left; rfl
      · exact absurd rfl hterm
    · rw [if_neg hterm] at htraj
      cases hlb : loopBody m opts fuel s h steps with
      | none => rw [hlb] at htraj; simp at htraj
      | some sh =>
        rw [hlb, Option.some_bind] at htraj
        exact ih _ _ _ _ _ _ htraj

/-- C8: the termination reason of any trajectory the driver returns is one of
`Horizon`, `Escape`, `MaxSteps`; neither `DiskCrossing` nor the internal
`None` is ever emitted. -/
theorem C8_termination_reason_cases (fuel : ℕ) (initial : GeodesicState) (m : Metric)
    (opts : IntegrationOptions) (traj : Trajectory)
    (htraj : integrate fuel initial m opts = some traj) :
    traj.termination = TerminationReason.Horizon ∨
    traj.termination = TerminationReason.Escape ∨
    traj.termination = TerminationReason.MaxSteps :=
  integrateLoop_reason_inv m opts fuel _ _ _ _ _ _ traj htraj


lemma integrateLoop_path_none (m : Metric) (opts : IntegrationOptions) (fuel : ℕ) :
    ∀ (remaining : ℕ) (s : GeodesicState) (h : ℝ) (steps : ℕ) (drift : ℝ)
      (traj : Trajectory),
      integrateLoop m opts fuel remaining s h steps drift none = some traj →
      traj.path = none := by
  intro remaining
  induction remaining with
  | zero =>
    intro s h steps drift traj htraj
    simp only [integrateLoop, Option.some.injEq] at htraj
    subst htraj
    rfl
  | succ n ih =>
    intro s h steps drift traj htraj
    simp only [integrateLoop] at htraj
    by_cases hterm :
        s.check_termination (Metric.event_horizon m) opts.escape_radius ≠ TerminationReason.None
    · rw [if_pos hterm, Option.some.injEq] at htraj
      subst htraj
      rfl
    · rw [if_neg hterm] at htraj
      cases hlb : loopBody m opts fuel s h steps with
      | none => rw [hlb] at htraj; simp at htraj
      | some sh =>
        rw [hlb, Option.some_bind] at htraj
        exact ih _ _ _ _ _ (by simpa using htraj)

lemma integrateLoop_path_inv (m : Metric) (opts : IntegrationOptions) (fuel : ℕ)
    (initial : GeodesicState) :
    ∀ (remaining : ℕ) (k : ℕ) (s : GeodesicState) (h : ℝ) (drift : ℝ)
      (l : List GeodesicState) (traj : Trajectory),
      iterN m opts fuel initial k = some (s, h) →
      l.length = k + 1 →
      l.get? 0 = some initial →
      (∀ i, 1 ≤ i → i ≤ k →
        ∃ sh, iterN m opts fuel initial i = some sh ∧ l.get? i = some sh.1) →
      integrateLoop m opts fuel remaining s h k drift (some l) = some traj →
      ∃ l', traj.path = some l' ∧ l'.length = traj.steps_taken + 1 ∧
        l'.get? 0 = some initial ∧
        (∀ i, 1 ≤ i → i ≤ traj.steps_taken →
          ∃ sh, iterN m opts fuel initial i = some sh ∧ l'.get? i = some sh.1) := by
  intro remaining
  induction remaining with
  | zero =>
    intro k s h drift l traj hiter hlen h0 hmid htraj
    simp only [integrateLoop, Option.some.injEq] at htraj
    subst htraj
    exact ⟨l, rfl, hlen, h0, hmid⟩
  | succ n ih =>
    intro k s h drift l traj hiter hlen h0 hmid htraj
    simp only [integrateLoop] at htraj
    by_cases hterm :
        s.check_termination (Metric.event_horizon m) opts.escape_radius ≠ TerminationReason.None
    · rw [if_pos hterm, Option.some.injEq] at htraj
      subst htraj
      exact ⟨l, rfl, hlen, h0, hmid⟩
    · rw [if_neg hterm] at htraj
      cases hlb : loopBody m opts fuel s h k with
      | none => rw [hlb] at htraj; simp at htraj
      | some sh =>
        rw [hlb, Option.some_bind] at htraj
        simp only [Option.map_some'] at htraj
        have hiter' : iterN m opts fuel initial (k + 1) = some sh := by
          rw [iterN, hiter, Option.some_bind]
          exact hlb
        refine ih (k + 1) sh.1 sh.2 _ (l ++ [sh.1]) traj hiter' ?_ ?_ ?_ htraj
        · simp [hlen]
        · rw [List.get?_append (by omega)]
          exact h0
        · intro i h1 hk1
          rcases eq_or_lt_of_le hk1 with heq | hlt
          · subst heq
            refine ⟨sh, hiter', ?_⟩
            have : l.length = k + 1 := hlen
            rw [← this, List.get?_concat_length]
          · have hik : i ≤ k := by omega
            obtain ⟨sh', hit', hget'⟩ := hmid i h1 hik
            exact ⟨sh', hit', by rw [List.get?_append (by omega)]; exact hget'⟩

/-- C10: when `record_path` is on, the returned path has exactly
`steps_taken + 1` entries — entry 0 is the caller's initial state as
supplied (recorded before the initial renormalization), and entry `i` is the
state after the `i`-th completed driver-loop iteration; when `record_path`
is off, no path is returned. -/
theorem C10_recorded_path (fuel : ℕ) (initial : GeodesicState) (m : Metric)
    (opts : IntegrationOptions) (traj : Trajectory)
    (htraj : integrate fuel initial m opts = some traj) :
    (opts.record_path = true →
      ∃ l, traj.path = some l ∧ l.length = traj.steps_taken + 1 ∧
        l.get? 0 = some initial ∧
        (∀ i, 1 ≤ i → i ≤ traj.steps_taken →
          ∃ sh, iterN m opts fuel initial i = some sh ∧ l.get? i = some sh.1)) ∧
    (opts.record_path = false → traj.path = none) := by
  constructor
  · intro hrec
    unfold integrate at htraj
    rw [if_pos hrec] at htraj
    refine integrateLoop_path_inv m opts fuel initial opts.max_steps 0
      (renormalize_null m initial) opts.initial_step 0 [initial] traj rfl rfl rfl ?_ htraj
    intro i h1 h0
    omega
  · intro hrec
    unfold integrate at htraj
    rw [if_neg (by simp [hrec])] at htraj
    exact integrateLoop_path_none m opts fuel _ _ _ _ _ traj htraj


def horizonState : GeodesicState where
  x := ![0, -1, 0, 0]
  p := ![0, 0, 0, 0]

def horizonOpts : IntegrationOptions :=
  ⟨IntegrationMethod.RK4 1, 1e-8, 0.01, 1, 1000, 10, false⟩

def maxStepsOpts : IntegrationOptions :=
  ⟨IntegrationMethod.RK4 1, 1e-8, 0.01, 0, 1000, 10, false⟩

def recordOpts : IntegrationOptions :=
  ⟨IntegrationMethod.RK4 1, 1e-8, 0.01, 0, 1000, 10, true⟩

lemma zeroMetric_renorm (s : GeodesicState) : renormalize_null zeroMetric s = s := by
  refine renormalize_null_eq_self zeroMetric s (Or.inl ?_)
  norm_num [renormA, zeroMetric]

lemma zeroMetric_horizon : Metric.event_horizon zeroMetric = 0 := by
  rw [Metric.event_horizon]
  norm_num [zeroMetric, Real.sqrt_zero]

lemma horizonState_term :
    horizonState.check_termination (Metric.event_horizon zeroMetric) 1000 =
      TerminationReason.Horizon := by
  unfold GeodesicState.check_termination
  rw [zeroMetric_horizon]
  norm_num [horizonState]

/-- Witness for C3: a concrete run that returns `Horizon` at step 0, with
the radial bound evaluated there. -/
theorem C3_witness :
    integrate 0 horizonState zeroMetric horizonOpts =
      some ⟨horizonState, TerminationReason.Horizon, 0, 0, none⟩ ∧
    ((⟨horizonState, TerminationReason.Horizon, 0, 0, none⟩ : Trajectory).final_state.x 1 <
      Metric.event_horizon zeroMetric * 1.001) := by
  have hrun : integrate 0 horizonState zeroMetric horizonOpts =
      some ⟨horizonState, TerminationReason.Horizon, 0, 0, none⟩ := by
    simp only [integrate, horizonOpts, zeroMetric_renorm, integrateLoop, horizonState_term]
    rw [if_pos (by decide : TerminationReason.Horizon ≠ TerminationReason.None)]
    simp
  exact ⟨hrun,
    (C3_termination_tested_on_incoming_state 0 horizonState zeroMetric horizonOpts _ hrun).1
      rfl⟩

/-- Witness for C8: a concrete run that returns `MaxSteps`, with the reason
disjunction evaluated there. -/
theorem C8_witness :
    integrate 0 probeState zeroMetric maxStepsOpts =
      some ⟨probeState, TerminationReason.MaxSteps, 0, 0, none⟩ ∧
    ((⟨probeState, TerminationReason.MaxSteps, 0, 0, none⟩ : Trajectory).termination =
        TerminationReason.Horizon ∨
      (⟨probeState, TerminationReason.MaxSteps, 0, 0, none⟩ : Trajectory).termination =
        TerminationReason.Escape ∨
      (⟨probeState, TerminationReason.MaxSteps, 0, 0, none⟩ : Trajectory).termination =
        TerminationReason.MaxSteps) := by
  have hrun : integrate 0 probeState zeroMetric maxStepsOpts =
      some ⟨probeState, TerminationReason.MaxSteps, 0, 0, none⟩ := by
    simp only [integrate, maxStepsOpts, zeroMetric_renorm, integrateLoop]
    simp
  exact ⟨hrun, C8_termination_reason_cases 0 probeState zeroMetric maxStepsOpts _ hrun⟩

/-- Witness for C10: a concrete path-recording run, with the path shape
evaluated there. -/
theorem C10_witness :
    integrate 0 probeState zeroMetric recordOpts =
      some ⟨probeState, TerminationReason.MaxSteps, 0, 0, some [probeState]⟩ ∧
    (∃ l,
      (⟨probeState, TerminationReason.MaxSteps, 0, 0, some [probeState]⟩ : Trajectory).path =
        some l ∧
      l.length =
        (⟨probeState, TerminationReason.MaxSteps, 0, 0,
          some [probeState]⟩ : Trajectory).steps_taken + 1 ∧
      l.get? 0 = some probeState ∧
      (∀ i, 1 ≤ i →
        i ≤ (⟨probeState, TerminationReason.MaxSteps, 0, 0,
          some [probeState]⟩ : Trajectory).steps_taken →
        ∃ sh, iterN zeroMetric recordOpts 0 probeState i = some sh ∧
          l.get? i = some sh.1)) := by
  have hrun : integrate 0 probeState zeroMetric recordOpts =
      some ⟨probeState, TerminationReason.MaxSteps, 0, 0, some [probeState]⟩ := by
    simp only [integrate, recordOpts, zeroMetric_renorm, integrateLoop]
    simp
  exact ⟨hrun, (C10_recorded_path 0 probeState zeroMetric recordOpts _ hrun).1 rfl⟩



/-- Coordinate chart selector for Kerr (`CoordinateSystem`). -/
inductive CoordinateSystem where
  | BoyerLindquist
  | KerrSchild
deriving DecidableEq

/-- The Kerr spacetime value (`Kerr` of `metric/kerr.rs`): mass, clamped
dimensionless spin, chart selector. -/
structure Kerr where
  mass_val : ℝ
  spin_val : ℝ
  coords : CoordinateSystem

/-- `Kerr::new`: Boyer-Lindquist chart, spin clamped to `[-1, 1]`. -/
def Kerr.new (mass spin : ℝ) : Kerr :=
  ⟨mass, rustClamp spin (-1) 1, CoordinateSystem.BoyerLindquist⟩

/-- `Kerr::kerr_schild`: Kerr-Schild chart, spin clamped to `[-1, 1]`. -/
def Kerr.kerr_schild (mass spin : ℝ) : Kerr :=
  ⟨mass, rustClamp spin (-1) 1, CoordinateSystem.KerrSchild⟩

/-- Geometric spin `a = a* M`. -/
def Kerr.a (k : Kerr) : ℝ := k.spin_val * k.mass_val

/-- `Kerr::covariant_bl`. -/
def Kerr.covariant_bl (k : Kerr) (r theta : ℝ) : MetricTensor4 :=
  let m := k.mass_val
  let a := k.a
  let r2 := r * r
  let a2 := a * a
  let sin_theta := Real.sin theta
  let cos_theta := Real.cos theta
  let sin2 := sin_theta * sin_theta
  let cos2 := cos_theta * cos_theta
  let sigma := r2 + a2 * cos2
  let delta := r2 - 2 * m * r + a2
  let g_tt := -(1 - (2 * m * r) / sigma)
  let g_rr := sigma / delta
  let g_thth := sigma
  let g_phph := (r2 + a2 + (2 * m * r * a2 * sin2) / sigma) * sin2
  let g_tph := -(2 * m * r * a * sin2) / sigma
  !![g_tt, 0, 0, g_tph;
     0, g_rr, 0, 0;
     0, 0, g_thth, 0;
     g_tph, 0, 0, g_phph]

/-- `Kerr::contravariant_bl`, with the `0` fallback on `g^phph` at the pole
(`sin2 < 1e-9`). -/
def Kerr.contravariant_bl (k : Kerr) (r theta : ℝ) : MetricTensor4 :=
  let m := k.mass_val
  let a := k.a
  let r2 := r * r
  let a2 := a * a
  let sin_theta := Real.sin theta
  let cos_theta := Real.cos theta
  let sin2 := sin_theta * sin_theta
  let cos2 := cos_theta * cos_theta
  let sigma := r2 + a2 * cos2
  let delta := r2 - 2 * m * r + a2
  let g_tt := -((sigma * (r2 + a2) + 2 * m * r * a2 * sin2) / (delta * sigma))
  let g_rr := delta / sigma
  let g_thth := 1 / sigma
  let g_phph := if sin2 < 1e-9 then 0 else (delta - a2 * sin2) / (delta * sigma * sin2)
  let g_tph := -(2 * m * r * a) / (delta * sigma)
  !![g_tt, 0, 0, g_tph;
     0, g_rr, 0, 0;
     0, 0, g_thth, 0;
     g_tph, 0, 0, g_phph]

/-- `Kerr::hamiltonian_derivs_bl`: the closed-form assembly
`dH/dalpha = 1/2 p_mu p_nu d(g^mu nu)/d alpha` over the five non-zero inverse
components, with the `(t, phi)` off-diagonal counted twice. -/
def Kerr.hamiltonian_derivs_bl (k : Kerr) (r theta : ℝ) (p : Fin 4 → ℝ) :
    HamiltonianDerivatives :=
  let m := k.mass_val
  let a := k.a
  let r2 := r * r
  let a2 := a * a
  let cos_theta := Real.cos theta
  let sin_theta := Real.sin theta
  let sin2 := sin_theta * sin_theta
  let cos2 := cos_theta * cos_theta
  let sigma := r2 + a2 * cos2
  let delta := r2 - 2 * m * r + a2
  let sigma_sq := sigma * sigma
  let dsigma_dr := 2 * r
  let dsigma_dtheta := -2 * a2 * cos_theta * sin_theta
  let ddelta_dr := 2 * r - 2 * m
  let dg_rr_dr := (ddelta_dr * sigma - delta * dsigma_dr) / sigma_sq
  let dg_rr_dtheta := -(delta * dsigma_dtheta) / sigma_sq
  let dg_thth_dr := -dsigma_dr / sigma_sq
  let dg_thth_dtheta := -dsigma_dtheta / sigma_sq
  let num_tphi := -2 * m * r * a
  let den_tphi := delta * sigma
  let dnum_tphi_dr := -2 * m * a
  let dden_tphi_dr := ddelta_dr * sigma + delta * dsigma_dr
  let dg_tphi_dr := (dnum_tphi_dr * den_tphi - num_tphi * dden_tphi_dr)
    / (den_tphi * den_tphi)
  let dden_tphi_dtheta := delta * dsigma_dtheta
  let dg_tphi_dtheta := -(num_tphi * dden_tphi_dtheta) / (den_tphi * den_tphi)
  let du_dr := dsigma_dr * (r2 + a2) + sigma * 2 * r + 2 * m * a2 * sin2
  let dv_dr := dden_tphi_dr
  let u_val := sigma * (r2 + a2) + 2 * m * r * a2 * sin2
  let dg_tt_dr := -(du_dr * den_tphi - u_val * dv_dr) / (den_tphi * den_tphi)
  let du_dtheta := dsigma_dtheta * (r2 + a2) + 2 * m * r * a2 * 2 * sin_theta * cos_theta
  let dv_dtheta := dden_tphi_dtheta
  let dg_tt_dtheta := -(du_dtheta * den_tphi - u_val * dv_dtheta) / (den_tphi * den_tphi)
  let da_dr := -dsigma_dr / (sigma_sq * sin2)
  let db_dr := -a2 * dden_tphi_dr / (den_tphi * den_tphi)
  let dg_phph_dr := da_dr - db_dr
  let d_denom_a_dtheta := dsigma_dtheta * sin2 + sigma * 2 * sin_theta * cos_theta
  let da_dtheta := -d_denom_a_dtheta / (sigma_sq * sin2 * sin2)
  let db_dtheta := -a2 * dden_tphi_dtheta / (den_tphi * den_tphi)
  let dg_phph_dtheta := da_dtheta - db_dtheta
  let p_t := p 0
  let p_r := p 1
  let p_th := p 2
  let p_ph := p 3
  ⟨0.5 * (p_t * p_t * dg_tt_dr + p_r * p_r * dg_rr_dr + p_th * p_th * dg_thth_dr
      + p_ph * p_ph * dg_phph_dr + 2 * p_t * p_ph * dg_tphi_dr),
   0.5 * (p_t * p_t * dg_tt_dtheta + p_r * p_r * dg_rr_dtheta + p_th * p_th * dg_thth_dtheta
      + p_ph * p_ph * dg_phph_dtheta + 2 * p_t * p_ph * dg_tphi_dtheta)⟩

/-- `Kerr::covariant_ks`: `eta + 2 H_geo l_mu l_nu` with the null one-form
`l = (1, Sigma/(r^2+a^2), 0, -a sin^2 theta)`. -/
def Kerr.covariant_ks (k : Kerr) (r theta : ℝ) : MetricTensor4 :=
  let m := k.mass_val
  let a := k.a
  let r2 := r * r
  let a2 := a * a
  let cos2 := (Real.cos theta) ^ 2
  let sin2 := 1 - cos2
  let sigma := r2 + a2 * cos2
  let hgeo := (m * r) / sigma
  let l0 : ℝ := 1
  let l1 := sigma / (r2 + a2)
  let l3 := -a * sin2
  let eta_rr := sigma / (r2 + a2)
  let eta_thth := sigma
  let eta_phph := (r2 + a2) * sin2
  !![-1 + 2 * hgeo * l0 * l0, 2 * hgeo * l0 * l1, 0, 2 * hgeo * l0 * l3;
     2 * hgeo * l1 * l0, eta_rr + 2 * hgeo * l1 * l1, 0, 2 * hgeo * l1 * l3;
     0, 0, eta_thth, 0;
     2 * hgeo * l3 * l0, 2 * hgeo * l3 * l1, 0, eta_phph + 2 * hgeo * l3 * l3]

/-- `Kerr::contravariant_ks`: the stable closed-form inverse, with `sin2`
floored at `1e-12`. -/
def Kerr.contravariant_ks (k : Kerr) (r theta : ℝ) : MetricTensor4 :=
  let m := k.mass_val
  let a := k.a
  let r2 := r * r
  let a2 := a * a
  let sin2 := max ((Real.sin theta) ^ 2) 1e-12
  let cos2 := 1 - sin2
  let sigma := r2 + a2 * cos2
  let delta := r2 - 2 * m * r + a2
  let g_tt := -(1 + 2 * m * r / sigma)
  let g_tr := 2 * m * r / sigma
  let g_rr := delta / sigma
  let g_thth := 1 / sigma
  let g_phph := 1 / (sigma * sin2)
  let g_rph := a / sigma
  !![g_tt, g_tr, 0, 0;
     g_tr, g_rr, 0, g_rph;
     0, 0, g_thth, 0;
     0, g_rph, 0, g_phph]

/-- `Kerr::hamiltonian_derivs_ks`, with `dH/dtheta` forced to zero when
`|sin theta| < 1e-10`. -/
def Kerr.hamiltonian_derivs_ks (k : Kerr) (r theta : ℝ) (p : Fin 4 → ℝ) :
    HamiltonianDerivatives :=
  let m := k.mass_val
  let a := k.a
  let r2 := r * r
  let a2 := a * a
  let sin_theta := Real.sin theta
  let cos_theta := Real.cos theta
  let sin2 := max (sin_theta * sin_theta) 1e-12
  let cos2 := 1 - sin2
  let sigma := r2 + a2 * cos2
  let sigma2 := sigma * sigma
  let delta := r2 - 2 * m * r + a2
  let dsigma_dr := 2 * r
  let dsigma_dtheta := -2 * a2 * sin_theta * cos_theta
  let ddelta_dr := 2 * r - 2 * m
  let dg_tt_dr := -(2 * m * (sigma - r * dsigma_dr)) / sigma2
  let dg_tt_dtheta := (2 * m * r * dsigma_dtheta) / sigma2
  let dg_tr_dr := -dg_tt_dr
  let dg_tr_dtheta := -dg_tt_dtheta
  let dg_rr_dr := (ddelta_dr * sigma - delta * dsigma_dr) / sigma2
  let dg_rr_dtheta := -(delta * dsigma_dtheta) / sigma2
  let dg_thth_dr := -dsigma_dr / sigma2
  let dg_thth_dtheta := -dsigma_dtheta / sigma2
  let dg_phph_dr := -dsigma_dr / (sigma2 * sin2)
  let dg_phph_dtheta :=
    -(dsigma_dtheta * sin2 + sigma * 2 * sin_theta * cos_theta) / (sigma2 * sin2 * sin2)
  let dg_rph_dr := -(a * dsigma_dr) / sigma2
  let dg_rph_dtheta := -(a * dsigma_dtheta) / sigma2
  let dh_dr := 0.5 * (dg_tt_dr * p 0 * p 0 + dg_rr_dr * p 1 * p 1 + dg_thth_dr * p 2 * p 2
      + dg_phph_dr * p 3 * p 3 + 2 * dg_tr_dr * p 0 * p 1 + 2 * dg_rph_dr * p 1 * p 3)
  let dh_dtheta := 0.5 * (dg_tt_dtheta * p 0 * p 0 + dg_rr_dtheta * p 1 * p 1
      + dg_thth_dtheta * p 2 * p 2 + dg_phph_dtheta * p 3 * p 3
      + 2 * dg_tr_dtheta * p 0 * p 1 + 2 * dg_rph_dtheta * p 1 * p 3)
  ⟨dh_dr, if |sin_theta| < 1e-10 then 0 else dh_dtheta⟩

/-- Package a `Kerr` value behind the `Metric` interface, dispatching on the
chart exactly as the trait impl does. -/
def Kerr.toMetric (k : Kerr) : Metric where
  covariant := fun r theta =>
    match k.coords with
    | CoordinateSystem.BoyerLindquist => k.covariant_bl r theta
    | CoordinateSystem.KerrSchild => k.covariant_ks r theta
  contravariant := fun r theta =>
    match k.coords with
    | CoordinateSystem.BoyerLindquist => k.contravariant_bl r theta
    | CoordinateSystem.KerrSchild => k.contravariant_ks r theta
  hamiltonian_derivatives := fun r theta p =>
    match k.coords with
    | CoordinateSystem.BoyerLindquist => k.hamiltonian_derivs_bl r theta p
    | CoordinateSystem.KerrSchild => k.hamiltonian_derivs_ks r theta p
  mass := k.mass_val
  spin := k.spin_val

/-- The Schwarzschild spacetime value (`Schwarzschild` of
`metric/schwarzschild.rs`). -/
structure Schwarzschild where
  mass_val : ℝ

/-- `Schwarzschild::new`. -/
def Schwarzschild.new (mass : ℝ) : Schwarzschild := ⟨mass⟩

/-- `Schwarzschild`'s `covariant`. -/
def Schwarzschild.covariant (sch : Schwarzschild) (r theta : ℝ) : MetricTensor4 :=
  let m := sch.mass_val
  let rs := 2 * m
  let sin2 := (Real.sin theta) ^ 2
  !![-(1 - rs / r), 0, 0, 0;
     0, 1 / (1 - rs / r), 0, 0;
     0, 0, r * r, 0;
     0, 0, 0, r * r * sin2]

/-- `Schwarzschild`'s `contravariant`, with `sin2` floored at `1e-12`. -/
def Schwarzschild.contravariant (sch : Schwarzschild) (r theta : ℝ) : MetricTensor4 :=
  let m := sch.mass_val
  let rs := 2 * m
  let sin2 := max ((Real.sin theta) ^ 2) 1e-12
  !![-1 / (1 - rs / r), 0, 0, 0;
     0, 1 - rs / r, 0, 0;
     0, 0, 1 / (r * r), 0;
     0, 0, 0, 1 / (r * r * sin2)]

/-- `Schwarzschild`'s `hamiltonian_derivatives`. -/
def Schwarzschild.hamiltonian_derivatives (sch : Schwarzschild) (r theta : ℝ)
    (p : Fin 4 → ℝ) : HamiltonianDerivatives :=
  let m := sch.mass_val
  let r2 := r * r
  let r3 := r2 * r
  let sin_theta := Real.sin theta
  let cos_theta := Real.cos theta
  let sin2 := sin_theta * sin_theta
  let f := 1 - 2 * m / r
  let dg_tt_dr := -2 * m / (r2 * f * f)
  let dg_rr_dr := 2 * m / r2
  let dg_thth_dr := -2 / r3
  let dg_phph_dr := if sin2 < 1e-12 then 0 else -2 / (r3 * sin2)
  let dg_phph_dtheta :=
    if sin2 < 1e-12 then 0 else -2 * cos_theta / (r2 * sin_theta * sin2)
  ⟨0.5 * (dg_tt_dr * p 0 * p 0 + dg_rr_dr * p 1 * p 1 + dg_thth_dr * p 2 * p 2
      + dg_phph_dr * p 3 * p 3),
   0.5 * dg_phph_dtheta * p 3 * p 3⟩

/-- Package a `Schwarzschild` value behind the `Metric` interface
(`mass = M`, `spin = 0`). -/
def Schwarzschild.toMetric (sch : Schwarzschild) : Metric where
  covariant := sch.covariant
  contravariant := sch.contravariant
  hamiltonian_derivatives := sch.hamiltonian_derivatives
  mass := sch.mass_val
  spin := 0

/-- The `Minkowski` implementation of the `Metric` interface
(`metric/minkowski.rs`): flat spacetime in spherical coordinates,
`mass = 0`, `spin = 0`. -/
def minkowskiMetric : Metric where
  covariant := fun r theta =>
    let sin2 := (Real.sin theta) ^ 2
    !![-1, 0, 0, 0;
       0, 1, 0, 0;
       0, 0, r * r, 0;
       0, 0, 0, r * r * sin2]
  contravariant := fun r theta =>
    let sin2 := max ((Real.sin theta) ^ 2) 1e-12
    !![-1, 0, 0, 0;
       0, 1, 0, 0;
       0, 0, 1 / (r * r), 0;
       0, 0, 0, 1 / (r * r * sin2)]
  hamiltonian_derivatives := fun r theta p =>
    let r3 := r * r * r
    let sin_theta := Real.sin theta
    let cos_theta := Real.cos theta
    let sin2 := sin_theta * sin_theta
    ⟨0.5 * (-2 / r3 * p 2 * p 2
        + if 1e-12 < sin2 then -2 / (r3 * sin2) * p 3 * p 3 else 0),
     if 1e-12 < sin2 then 0.5 * (-2 * cos_theta / (r * r * sin_theta * sin2)) * p 3 * p 3
     else 0⟩
  mass := 0
  spin := 0


lemma contract_expand (g : MetricTensor4) (p : Fin 4 → ℝ) :
    MetricTensor4.contract g p =
      g 0 0 * p 0 * p 0 + g 0 1 * p 0 * p 1 + g 0 2 * p 0 * p 2 + g 0 3 * p 0 * p 3
      + g 1 0 * p 1 * p 0 + g 1 1 * p 1 * p 1 + g 1 2 * p 1 * p 2 + g 1 3 * p 1 * p 3
      + g 2 0 * p 2 * p 0 + g 2 1 * p 2 * p 1 + g 2 2 * p 2 * p 2 + g 2 3 * p 2 * p 3
      + g 3 0 * p 3 * p 0 + g 3 1 * p 3 * p 1 + g 3 2 * p 3 * p 2 + g 3 3 * p 3 * p 3 := by
  unfold MetricTensor4.contract
  rw [Fin.sum_univ_four]
  rw [Fin.sum_univ_four, Fin.sum_univ_four, Fin.sum_univ_four, Fin.sum_univ_four]
  ring

/-- For a tensor whose theta row and column vanish off the diagonal and whose
remaining off-diagonal entries are symmetric, the seven-term Hamiltonian form
is half the full 16-term contraction. -/
lemma seven_term_eq_half_contract (g : MetricTensor4) (p : Fin 4 → ℝ)
    (h02 : g 0 2 = 0) (h20 : g 2 0 = 0) (h12 : g 1 2 = 0) (h21 : g 2 1 = 0)
    (h23 : g 2 3 = 0) (h32 : g 3 2 = 0)
    (h30 : g 3 0 = g 0 3) (h10 : g 1 0 = g 0 1) (h31 : g 3 1 = g 1 3) :
    0.5 * (g 0 0 * p 0 * p 0 + g 1 1 * p 1 * p 1 + g 2 2 * p 2 * p 2 + g 3 3 * p 3 * p 3
      + 2 * g 0 3 * p 0 * p 3 + 2 * g 0 1 * p 0 * p 1 + 2 * g 1 3 * p 1 * p 3)
    = 1/2 * MetricTensor4.contract g p := by
  rw [contract_expand, h02, h20, h12, h21, h23, h32, h30, h10, h31]
  ring

lemma hamiltonian_expand (s : GeodesicState) (m : Metric) :
    hamiltonian s m =
      0.5 * (m.contravariant (s.x 1) (s.x 2) 0 0 * s.p 0 * s.p 0
        + m.contravariant (s.x 1) (s.x 2) 1 1 * s.p 1 * s.p 1
        + m.contravariant (s.x 1) (s.x 2) 2 2 * s.p 2 * s.p 2
        + m.contravariant (s.x 1) (s.x 2) 3 3 * s.p 3 * s.p 3
        + 2 * m.contravariant (s.x 1) (s.x 2) 0 3 * s.p 0 * s.p 3
        + 2 * m.contravariant (s.x 1) (s.x 2) 0 1 * s.p 0 * s.p 1
        + 2 * m.contravariant (s.x 1) (s.x 2) 1 3 * s.p 1 * s.p 3) := rfl

lemma kerr_new_contravariant (M a r theta : ℝ) :
    (Kerr.new M a).toMetric.contravariant r theta = (Kerr.new M a).contravariant_bl r theta :=
  rfl

lemma kerr_ks_contravariant (M a r theta : ℝ) :
    (Kerr.kerr_schild M a).toMetric.contravariant r theta =
      (Kerr.kerr_schild M a).contravariant_ks r theta :=
  rfl

lemma kerr_bl_pattern (k : Kerr) (r theta : ℝ) :
    k.contravariant_bl r theta 0 2 = 0 ∧ k.contravariant_bl r theta 2 0 = 0 ∧
    k.contravariant_bl r theta 1 2 = 0 ∧ k.contravariant_bl r theta 2 1 = 0 ∧
    k.contravariant_bl r theta 2 3 = 0 ∧ k.contravariant_bl r theta 3 2 = 0 ∧
    k.contravariant_bl r theta 3 0 = k.contravariant_bl r theta 0 3 ∧
    k.contravariant_bl r theta 1 0 = k.contravariant_bl r theta 0 1 ∧
    k.contravariant_bl r theta 3 1 = k.contravariant_bl r theta 1 3 := by
  unfold Kerr.contravariant_bl
  norm_num [Matrix.vecHead, Matrix.vecTail]

lemma kerr_ks_pattern (k : Kerr) (r theta : ℝ) :
    k.contravariant_ks r theta 0 2 = 0 ∧ k.contravariant_ks r theta 2 0 = 0 ∧
    k.contravariant_ks r theta 1 2 = 0 ∧ k.contravariant_ks r theta 2 1 = 0 ∧
    k.contravariant_ks r theta 2 3 = 0 ∧ k.contravariant_ks r theta 3 2 = 0 ∧
    k.contravariant_ks r theta 3 0 = k.contravariant_ks r theta 0 3 ∧
    k.contravariant_ks r theta 1 0 = k.contravariant_ks r theta 0 1 ∧
    k.contravariant_ks r theta 3 1 = k.contravariant_ks r theta 1 3 := by
  unfold Kerr.contravariant_ks
  norm_num [Matrix.vecHead, Matrix.vecTail]

lemma schwarzschild_pattern (sch : Schwarzschild) (r theta : ℝ) :
    sch.contravariant r theta 0 2 = 0 ∧ sch.contravariant r theta 2 0 = 0 ∧
    sch.contravariant r theta 1 2 = 0 ∧ sch.contravariant r theta 2 1 = 0 ∧
    sch.contravariant r theta 2 3 = 0 ∧ sch.contravariant r theta 3 2 = 0 ∧
    sch.contravariant r theta 3 0 = sch.contravariant r theta 0 3 ∧
    sch.contravariant r theta 1 0 = sch.contravariant r theta 0 1 ∧
    sch.contravariant r theta 3 1 = sch.contravariant r theta 1 3 := by
  unfold Schwarzschild.contravariant
  norm_num [Matrix.vecHead, Matrix.vecTail]

lemma minkowski_pattern (r theta : ℝ) :
    minkowskiMetric.contravariant r theta 0 2 = 0 ∧
    minkowskiMetric.contravariant r theta 2 0 = 0 ∧
    minkowskiMetric.contravariant r theta 1 2 = 0 ∧
    minkowskiMetric.contravariant r theta 2 1 = 0 ∧
    minkowskiMetric.contravariant r theta 2 3 = 0 ∧
    minkowskiMetric.contravariant r theta 3 2 = 0 ∧
    minkowskiMetric.contravariant r theta 3 0 = minkowskiMetric.contravariant r theta 0 3 ∧
    minkowskiMetric.contravariant r theta 1 0 = minkowskiMetric.contravariant r theta 0 1 ∧
    minkowskiMetric.contravariant r theta 3 1 = minkowskiMetric.contravariant r theta 1 3 := by
  unfold minkowskiMetric
  norm_num [Matrix.vecHead, Matrix.vecTail]

/-- C9: for each of the four provided metric implementations (Kerr in
Boyer-Lindquist, Kerr in Kerr-Schild, Schwarzschild, Minkowski) the
seven-term `hamiltonian` equals half the full 16-term `contract` of the
contravariant metric with the momentum, because every omitted cross term
(those in the theta row and column) vanishes for these metrics. -/
theorem C9_hamiltonian_seven_term_equals_contract :
    (∀ (M a : ℝ) (s : GeodesicState),
      hamiltonian s (Kerr.new M a).toMetric =
        1/2 * MetricTensor4.contract
          ((Kerr.new M a).toMetric.contravariant (s.x 1) (s.x 2)) s.p) ∧
    (∀ (M a : ℝ) (s : GeodesicState),
      hamiltonian s (Kerr.kerr_schild M a).toMetric =
        1/2 * MetricTensor4.contract
          ((Kerr.kerr_schild M a).toMetric.contravariant (s.x 1) (s.x 2)) s.p) ∧
    (∀ (M : ℝ) (s : GeodesicState),
      hamiltonian s (Schwarzschild.new M).toMetric =
        1/2 * MetricTensor4.contract
          ((Schwarzschild.new M).toMetric.contravariant (s.x 1) (s.x 2)) s.p) ∧
    (∀ s : GeodesicState,
      hamiltonian s minkowskiMetric =
        1/2 * MetricTensor4.contract
          (minkowskiMetric.contravariant (s.x 1) (s.x 2)) s.p) := by
  refine ⟨?_, ?_, ?_, ?_⟩
  · intro M a s
    rw [hamiltonian_expand]
    rw [kerr_new_contravariant]
    obtain ⟨h02, h20, h12, h21, h23, h32, h30, h10, h31⟩ :=
      kerr_bl_pattern (Kerr.new M a) (s.x 1) (s.x 2)
    exact seven_term_eq_half_contract _ _ h02 h20 h12 h21 h23 h32 h30 h10 h31
  · intro M a s
    rw [hamiltonian_expand]
    rw [kerr_ks_contravariant]
    obtain ⟨h02, h20, h12, h21, h23, h32, h30, h10, h31⟩ :=
      kerr_ks_pattern (Kerr.kerr_schild M a) (s.x 1) (s.x 2)
    exact seven_term_eq_half_contract _ _ h02 h20 h12 h21 h23 h32 h30 h10 h31
  · intro M s
    rw [hamiltonian_expand]
    obtain ⟨h02, h20, h12, h21, h23, h32, h30, h10, h31⟩ :=
      schwarzschild_pattern (Schwarzschild.new M) (s.x 1) (s.x 2)
    exact seven_term_eq_half_contract _ _ h02 h20 h12 h21 h23 h32 h30 h10 h31
  · intro s
    rw [hamiltonian_expand]
    obtain ⟨h02, h20, h12, h21, h23, h32, h30, h10, h31⟩ :=
      minkowski_pattern (s.x 1) (s.x 2)
    exact seven_term_eq_half_contract _ _ h02 h20 h12 h21 h23 h32 h30 h10 h31

/-- C7: `event_horizon` returns `M + sqrt(M^2 - a^2)` (with `a = spin * M`)
when the discriminant is non-negative and `M` otherwise; for Kerr with
`M = 1, a* = 0` it returns `2 = 2M`, and for `M = 1, a* = 1` it returns `1`
(exactly, hence within `1e-12`). -/
theorem C7_event_horizon (m : Metric) :
    (0 ≤ m.mass * m.mass - (m.spin * m.mass) * (m.spin * m.mass) →
      m.event_horizon = m.mass +
        Real.sqrt (m.mass * m.mass - (m.spin * m.mass) * (m.spin * m.mass))) ∧
    (m.mass * m.mass - (m.spin * m.mass) * (m.spin * m.mass) < 0 →
      m.event_horizon = m.mass) ∧
    (Kerr.new 1 0).toMetric.event_horizon = 2 ∧
    (Kerr.new 1 1).toMetric.event_horizon = 1 := by
  have hspin0 : (Kerr.new 1 0).toMetric.spin = 0 := by
    show rustClamp 0 (-1) 1 = 0
    norm_num [rustClamp]
  have hspin1 : (Kerr.new 1 1).toMetric.spin = 1 := by
    show rustClamp 1 (-1) 1 = 1
    norm_num [rustClamp]
  refine ⟨?_, ?_, ?_, ?_⟩
  · intro hd
    rw [Metric.event_horizon, if_neg (not_lt.mpr hd)]
  · intro hd
    rw [Metric.event_horizon, if_pos hd]
  · rw [Metric.event_horizon, hspin0]
    show (if (1:ℝ) * 1 - 0 * 1 * (0 * 1) < 0 then (1:ℝ)
      else 1 + Real.sqrt (1 * 1 - 0 * 1 * (0 * 1))) = 2
    rw [if_neg (by norm_num)]
    rw [show (1:ℝ) * 1 - 0 * 1 * (0 * 1) = 1 by norm_num, Real.sqrt_one]
    norm_num
  · rw [Metric.event_horizon, hspin1]
    show (if (1:ℝ) * 1 - 1 * 1 * (1 * 1) < 0 then (1:ℝ)
      else 1 + Real.sqrt (1 * 1 - 1 * 1 * (1 * 1))) = 1
    rw [if_neg (by norm_num)]
    rw [show (1:ℝ) * 1 - 1 * 1 * (1 * 1) = 0 by norm_num, Real.sqrt_zero]
    norm_num

/-- Witness for C7: the hypotheses evaluated at the Kerr `M = 1, a* = 0`
instance. -/
theorem C7_witness :
    (0 ≤ (Kerr.new 1 0).toMetric.mass * (Kerr.new 1 0).toMetric.mass -
      ((Kerr.new 1 0).toMetric.spin * (Kerr.new 1 0).toMetric.mass) *
        ((Kerr.new 1 0).toMetric.spin * (Kerr.new 1 0).toMetric.mass)) ∧
    (Kerr.new 1 0).toMetric.event_horizon =
      (Kerr.new 1 0).toMetric.mass +
        Real.sqrt ((Kerr.new 1 0).toMetric.mass * (Kerr.new 1 0).toMetric.mass -
          ((Kerr.new 1 0).toMetric.spin * (Kerr.new 1 0).toMetric.mass) *
            ((Kerr.new 1 0).toMetric.spin * (Kerr.new 1 0).toMetric.mass)) := by
  have hd : 0 ≤ (Kerr.new 1 0).toMetric.mass * (Kerr.new 1 0).toMetric.mass -
      ((Kerr.new 1 0).toMetric.spin * (Kerr.new 1 0).toMetric.mass) *
        ((Kerr.new 1 0).toMetric.spin * (Kerr.new 1 0).toMetric.mass) := by
    show (0:ℝ) ≤ 1 * 1 - rustClamp 0 (-1) 1 * 1 * (rustClamp 0 (-1) 1 * 1)
    norm_num [rustClamp]
  exact ⟨hd, (C7_event_horizon (Kerr.new 1 0).toMetric).1 hd⟩

end Gravitas
